import Mathlib

/-!
# Verification of the attendance CRUD application

Shallow embedding of `app_attendance.py`: the query helpers (`users_all`,
`users_ilike`, `user_by_id`, `user_by_number`), the HTML page controller
(`create`, `read`, `update`, `delete` routes), and the REST resource layer
(`SchoolAPI._Create`, `_Read`, `_ReadILike`, `_Update`, `_UpdateAll`,
`_Delete`).

The ORM model class `School` lives in `attendance_model.py`, which is not
part of the examined sources; its record shape, create/update/delete
semantics, and the SQL `ILIKE` pattern matching performed by the database
are modelled from the specification (see the doc comments marked
"Modelled from the spec").
-/

namespace Attendance

/-- Modelled from the spec: the sole entity of `attendance_model.School` —
a flat record with a system-assigned integer primary key `userID` and four
text fields `name`, `number`, `teacher`, `subject`. -/
structure School where
  userID : Nat
  name : String
  number : String
  teacher : String
  subject : String
deriving DecidableEq, Repr

/-- Modelled from the spec: the single-table record store backing the
`School` entity, with ordinary auto-increment primary-key semantics
(`nextId` is the id the next successful create will assign; ids are never
reused after deletion). -/
structure Store where
  recs : List School
  nextId : Nat
deriving DecidableEq, Repr

/-- Database invariants stated in the spec: `id` uniquely identifies a
record, `number` is a de-duplication key, and auto-increment ids of stored
records are below the next id to be assigned. -/
def Store.WF (s : Store) : Prop :=
  s.recs.Pairwise (fun a b => a.userID ≠ b.userID) ∧
  s.recs.Pairwise (fun a b => a.number ≠ b.number) ∧
  ∀ r ∈ s.recs, r.userID < s.nextId

instance (s : Store) : Decidable s.WF := by
  unfold Store.WF; infer_instance

/-- Modelled from the spec: `School.create` — inserts the constructed
record with the next auto-increment id and returns it; a duplicate
`number` causes creation to report failure (`None`) rather than insert,
leaving the table unchanged. -/
def createRec (store : Store) (name number teacher subject : String) :
    Option School × Store :=
  if store.recs.any (fun r => r.number == number) then (none, store)
  else
    let po : School := ⟨store.nextId, name, number, teacher, subject⟩
    (some po, ⟨store.recs ++ [po], store.nextId + 1⟩)

/-- Modelled from the spec: `School.update(name)` / `School.update(name,
teacher, subject)` mutate the fetched record in place; embedded as
replacement of the record carrying the given primary key. This version
updates `name` only. -/
def updateNameRec (store : Store) (uid : Nat) (name : String) : Store :=
  { store with
    recs := store.recs.map fun r =>
      if r.userID = uid then { r with name := name } else r }

/-- Modelled from the spec: the three-field variant of `School.update`,
mutating `name`, `teacher` and `subject` of the fetched record. -/
def updateAllRec (store : Store) (uid : Nat) (name teacher subject : String) :
    Store :=
  { store with
    recs := store.recs.map fun r =>
      if r.userID = uid then
        { r with name := name, teacher := teacher, subject := subject }
      else r }

/-- Modelled from the spec: `School.delete` removes the fetched record
from the table. -/
def deleteRec (store : Store) (uid : Nat) : Store :=
  { store with recs := store.recs.filter fun r => r.userID != uid }

/-- Modelled from the spec: SQL `ILIKE` pattern matching as performed by
the database for `School.name.ilike(term)`: `%` matches any (possibly
empty) character sequence, `_` matches exactly one character, and any
other pattern character matches case-insensitively. -/
def likeMatch : List Char → List Char → Bool
  | [], s => s.isEmpty
  | p :: ps, s =>
    if p = '%' then s.tails.any fun t => likeMatch ps t
    else
      match s with
      | [] => false
      | c :: cs => (p == '_' || p.toLower == c.toLower) && likeMatch ps cs

/-- `column.ilike(pattern)` on strings. -/
def ilike (pattern s : String) : Bool :=
  likeMatch pattern.toList s.toList

/-! ## Query helpers (from `app_attendance.py`, lines 30-51) -/

/-- `users_all`: converts the Users table into a list of records. -/
def users_all (store : Store) : List School :=
  store.recs

/-- `users_ilike(term)`: wraps the term in `%` and filters the table by
`name ILIKE pattern OR number ILIKE pattern`. -/
def users_ilike (term : String) (store : Store) : List School :=
  let pattern := "%" ++ term ++ "%"
  store.recs.filter fun r => ilike pattern r.name || ilike pattern r.number

/-- `user_by_id(userid)`: first record whose `userID` matches. -/
def user_by_id (userid : Nat) (store : Store) : Option School :=
  store.recs.find? fun r => r.userID == userid

/-- `user_by_number(number)`: first record whose `number` matches. -/
def user_by_number (number : String) (store : Store) : Option School :=
  store.recs.find? fun r => r.number == number

/-! ## Responses and request forms -/

/-- The response shapes a handler can produce: a rendered page carrying a
table, a redirect to the listing page (`url_for` target modelled from the
spec as the listing page), a JSON record, a JSON array, a message object
with a status code, or a server error (never produced on designed paths). -/
inductive Resp where
  | page (table : List School)
  | redirect
  | jsonRecord (r : School)
  | jsonArray (rs : List School)
  | message (code : Nat) (msg : String)
  | serverError
deriving DecidableEq, Repr

/-- The designed response shapes of the spec: rendered page, redirect,
record/array JSON, or a message object with status code 210. -/
def Resp.designed : Resp → Prop
  | .page _ => True
  | .redirect => True
  | .jsonRecord _ => True
  | .jsonArray _ => True
  | .message code _ => code = 210
  | .serverError => False

/-- A form-encoded request body: key/value pairs; Flask's
`request.form` is falsy exactly when the form is empty. -/
abbrev Form := List (String × String)

/-- `request.form.get(key)`: value of the first binding of `key`, with a
missing key embedded as the empty string. -/
def formGet (form : Form) (key : String) : String :=
  ((form.find? fun kv => kv.1 == key).map fun kv => kv.2).getD ""

/-- Accumulator run of a decimal digit parser. -/
def digitsToNat : List Char → Nat → Option Nat
  | [], acc => some acc
  | c :: cs, acc =>
    if c.isDigit then digitsToNat cs (acc * 10 + (c.toNat - '0'.toNat))
    else none

/-- Modelled from the spec: the form's `userid` text is compared against
the integer primary key by the database, which coerces a decimal string
to its numeric value and matches nothing otherwise. -/
def parseNat (s : String) : Option Nat :=
  match s.toList with
  | [] => none
  | l => digitsToNat l 0

/-! ## HTML page controller (from `app_attendance.py`, lines 57-114) -/

/-- `GET /`: obtains all Users from the table and loads the admin form. -/
def crud (store : Store) : Resp :=
  .page (users_all store)

/-- `POST /create/`: if the form is nonempty, construct a `School` from
the four form fields and call `create` on it; always redirect to the
listing page. -/
def create (form : Form) (store : Store) : Resp × Store :=
  if form.isEmpty then (.redirect, store)
  else
    (.redirect,
      (createRec store (formGet form "name") (formGet form "number")
        (formGet form "teacher") (formGet form "subject")).2)

/-- `POST /read/`: table starts empty; if the form is nonempty, look up
`userid` and, when found, place the single record in the table; render. -/
def read (form : Form) (store : Store) : Resp :=
  if form.isEmpty then .page []
  else
    match parseNat (formGet form "userid") with
    | none => .page []
    | some uid =>
      match user_by_id uid store with
      | none => .page []
      | some po => .page [po]

/-- `POST /update/`: if the form is nonempty, look up `userid`; when
found, update the record's `name`; always redirect. -/
def update (form : Form) (store : Store) : Resp × Store :=
  if form.isEmpty then (.redirect, store)
  else
    match parseNat (formGet form "userid") with
    | none => (.redirect, store)
    | some uid =>
      match user_by_id uid store with
      | none => (.redirect, store)
      | some po => (.redirect, updateNameRec store po.userID (formGet form "name"))

/-- `POST /delete/`: if the form is nonempty, look up `userid`; when
found, delete the record; always redirect. -/
def delete (form : Form) (store : Store) : Resp × Store :=
  if form.isEmpty then (.redirect, store)
  else
    match parseNat (formGet form "userid") with
    | none => (.redirect, store)
    | some uid =>
      match user_by_id uid store with
      | none => (.redirect, store)
      | some po => (.redirect, deleteRec store po.userID)

/-! ## REST resource layer (from `app_attendance.py`, lines 137-190) -/

/-- `SchoolAPI._Create.post`: construct and create; on success return the
record, otherwise the duplicate/format message with status 210. -/
def apiCreate (name number teacher subject : String) (store : Store) :
    Resp × Store :=
  match createRec store name number teacher subject with
  | (some person, store') => (.jsonRecord person, store')
  | (none, store') =>
    (.message 210
      ("Processed " ++ name ++ ", either a format error or " ++ number ++ " is duplicate"),
      store')

/-- `SchoolAPI._Read.get`: all records as a JSON array. -/
def apiRead (store : Store) : Resp :=
  .jsonArray (users_all store)

/-- `SchoolAPI._ReadILike.get`: filtered records as a JSON array. -/
def apiReadILike (term : String) (store : Store) : Resp :=
  .jsonArray (users_ilike term store)

/-- `SchoolAPI._Update.put`: find by `number`; absent yields the 210
message, otherwise update `name` and return the updated record. -/
def apiUpdate (number name : String) (store : Store) : Resp × Store :=
  match user_by_number number store with
  | none => (.message 210 (number ++ " is not found"), store)
  | some po =>
    (.jsonRecord { po with name := name }, updateNameRec store po.userID name)

/-- `SchoolAPI._UpdateAll.put`: find by `number`; absent yields the 210
message, otherwise update `name`, `teacher`, `subject` and return the
updated record. -/
def apiUpdateAll (number name teacher subject : String) (store : Store) :
    Resp × Store :=
  match user_by_number number store with
  | none => (.message 210 (number ++ " is not found"), store)
  | some po =>
    (.jsonRecord { po with name := name, teacher := teacher, subject := subject },
      updateAllRec store po.userID name teacher subject)

/-- `SchoolAPI._Delete.delete`: find by `userid`; absent yields the 210
message, otherwise capture the record, delete it, and return the captured
pre-delete representation. -/
def apiDelete (userid : Nat) (store : Store) : Resp × Store :=
  match user_by_id userid store with
  | none => (.message 210 (toString userid ++ " is not found"), store)
  | some po => (.jsonRecord po, deleteRec store po.userID)

/-! ## Spec-side search semantics (for the refinement claims about
`users_ilike`) -/

/-- Spec-side definition, following the spec's words: `name` or `number`
contains the term as a case-insensitive substring. Executable check that
the lower-cased term occurs inside the lower-cased string. -/
def containsCI (term s : String) : Bool :=
  (s.toList.map Char.toLower).tails.any fun u =>
    (term.toList.map Char.toLower).isPrefixOf u

/-- A term free of the SQL wildcard characters. -/
def NoWildcard (term : String) : Prop :=
  ∀ c ∈ term.toList, c ≠ '%' ∧ c ≠ '_'

instance (term : String) : Decidable (NoWildcard term) := by
  unfold NoWildcard; infer_instance

/-! ## Concrete sample data (used for witnesses and counterexamples) -/

/-- A sample record in the style of the repository's smoke tests. -/
def wilma : School :=
  ⟨1, "Wilma Flintstone", "0001112222", "123wifli", "Math"⟩

/-- A second sample record. -/
def fred : School :=
  ⟨2, "Fred Flintstone", "0001112223", "123frfli", "Math"⟩

/-- A small well-formed sample store. -/
def demoStore : Store := ⟨[wilma, fred], 3⟩

/-! ## Theory of the ILIKE matcher -/

lemma likeMatch_nil (s : List Char) : likeMatch [] s = s.isEmpty := by
  simp [likeMatch]

lemma likeMatch_percent (ps s : List Char) :
    likeMatch ('%' :: ps) s = s.tails.any fun t => likeMatch ps t := by
  simp [likeMatch]

lemma likeMatch_lit_nil {p : Char} (h : p ≠ '%') (ps : List Char) :
    likeMatch (p :: ps) [] = false := by
  simp [likeMatch, h]

lemma likeMatch_lit_cons {p : Char} (h : p ≠ '%') (ps : List Char)
    (c : Char) (cs : List Char) :
    likeMatch (p :: ps) (c :: cs) =
      ((p == '_' || p.toLower == c.toLower) && likeMatch ps cs) := by
  simp [likeMatch, h]

lemma likeMatch_percent_iff (ps s : List Char) :
    likeMatch ('%' :: ps) s = true ↔ ∃ t, t <:+ s ∧ likeMatch ps t = true := by
  rw [likeMatch_percent]
  simp [List.any_eq_true, List.mem_tails]

lemma likeMatch_litpercent_iff (t : List Char) (hw : ∀ c ∈ t, c ≠ '%' ∧ c ≠ '_') :
    ∀ s : List Char,
      (likeMatch (t ++ ['%']) s = true ↔
        t.map Char.toLower <+: s.map Char.toLower) := by
  induction t with
  | nil =>
    intro s
    rw [List.nil_append, likeMatch_percent_iff]
    simp only [List.map_nil, List.nil_prefix, iff_true]
    exact ⟨[], List.nil_suffix, by simp [likeMatch_nil]⟩
  | cons p t ih =>
    intro s
    have hp : p ≠ '%' := (hw p (List.mem_cons_self p t)).1
    have hu : p ≠ '_' := (hw p (List.mem_cons_self p t)).2
    have hw' : ∀ c ∈ t, c ≠ '%' ∧ c ≠ '_' := fun c hc => hw c (List.mem_cons_of_mem p hc)
    cases s with
    | nil =>
      rw [List.cons_append, likeMatch_lit_nil hp]
      simp
    | cons c cs =>
      rw [List.cons_append, likeMatch_lit_cons hp]
      simp only [List.map_cons, List.cons_prefix_cons]
      rw [Bool.and_eq_true, Bool.or_eq_true]
      rw [ih hw' cs]
      simp [hu]

/-- Splitting a mapped list along an append of its image. -/
lemma map_split {α β : Type} {f : α → β} {l : List α} {L₁ L₂ : List β}
    (h : l.map f = L₁ ++ L₂) :
    ∃ l₁ l₂, l = l₁ ++ l₂ ∧ l₁.map f = L₁ ∧ l₂.map f = L₂ := by
  induction L₁ generalizing l with
  | nil =>
    exact ⟨[], l, rfl, rfl, by simpa using h⟩
  | cons b L₁ ih =>
    cases l with
    | nil => simp at h
    | cons a l =>
      simp only [List.map_cons, List.cons_append, List.cons.injEq] at h
      obtain ⟨h1, h2⟩ := h
      obtain ⟨l₁, l₂, rfl, hm1, hm2⟩ := ih h2
      exact ⟨a :: l₁, l₂, rfl, by simp [h1, hm1], hm2⟩

lemma pattern_toList (term : String) :
    ("%" ++ term ++ "%").toList = '%' :: (term.toList ++ ['%']) := by
  show ("%" ++ term ++ "%").data = '%' :: (term.data ++ ['%'])
  rw [String.data_append, String.data_append]
  rfl

/-- The wrapped ILIKE pattern of a wildcard-free term tests exactly
case-insensitive substring containment. -/
lemma ilike_wrapped_iff (term : String) (hw : NoWildcard term) (s : String) :
    ilike ("%" ++ term ++ "%") s = true ↔
      term.toList.map Char.toLower <:+: s.toList.map Char.toLower := by
  unfold ilike
  rw [pattern_toList, likeMatch_percent_iff]
  constructor
  · rintro ⟨u, hsuf, hm⟩
    have hpre := (likeMatch_litpercent_iff term.toList hw u).1 hm
    rw [List.infix_iff_prefix_suffix]
    exact ⟨u.map Char.toLower, hpre, List.IsSuffix.map _ hsuf⟩
  · intro hinf
    rw [List.infix_iff_prefix_suffix] at hinf
    obtain ⟨u, hpre, hsuf⟩ := hinf
    obtain ⟨w, hw2⟩ := hsuf
    obtain ⟨w', u', heq, hmw, hmu⟩ := map_split hw2.symm
    refine ⟨u', heq ▸ List.suffix_append w' u', ?_⟩
    rw [likeMatch_litpercent_iff term.toList hw u', hmu]
    exact hpre

/-- `containsCI` tests case-insensitive substring containment. -/
lemma containsCI_iff (term s : String) :
    containsCI term s = true ↔
      term.toList.map Char.toLower <:+: s.toList.map Char.toLower := by
  unfold containsCI
  rw [List.any_eq_true]
  constructor
  · rintro ⟨u, hu, hpre⟩
    rw [List.mem_tails] at hu
    rw [ List.isPrefixOf_iff_prefix] at hpre
    rw [List.infix_iff_prefix_suffix]
    exact ⟨u, hpre, hu⟩
  · intro hinf
    rw [List.infix_iff_prefix_suffix] at hinf
    obtain ⟨u, hpre, hsuf⟩ := hinf
    exact ⟨u, (List.mem_tails u _).2 hsuf, by rw [ List.isPrefixOf_iff_prefix]; exact hpre⟩

/-! ## Store decomposition helpers -/

lemma find?_split {α : Type} {p : α → Bool} {l : List α} {a : α}
    (h : l.find? p = some a) : ∃ l₁ l₂, l = l₁ ++ a :: l₂ := by
  induction l with
  | nil => simp at h
  | cons b l ih =>
    by_cases hb : p b
    · rw [List.find?_cons_of_pos _ hb] at h
      cases h
      exact ⟨[], l, rfl⟩
    · rw [List.find?_cons_of_neg _ hb] at h
      obtain ⟨l₁, l₂, heq⟩ := ih h
      exact ⟨b :: l₁, l₂, by rw [heq]; rfl⟩

lemma pairwise_ne_split {l₁ l₂ : List School} {po : School}
    (h : (l₁ ++ po :: l₂).Pairwise fun a b => a.userID ≠ b.userID) :
    (∀ r ∈ l₁, r.userID ≠ po.userID) ∧ ∀ r ∈ l₂, r.userID ≠ po.userID := by
  rw [List.pairwise_append] at h
  obtain ⟨h1, h2, h3⟩ := h
  rw [List.pairwise_cons] at h2
  refine ⟨fun r hr => h3 r hr po (List.mem_cons_self po l₂), fun r hr => ?_⟩
  exact fun e => h2.1 r hr e.symm

lemma map_modify_split (g : School → School) {l₁ l₂ : List School} {po : School}
    (h₁ : ∀ r ∈ l₁, r.userID ≠ po.userID) (h₂ : ∀ r ∈ l₂, r.userID ≠ po.userID) :
    ((l₁ ++ po :: l₂).map fun r => if r.userID = po.userID then g r else r) =
      l₁ ++ g po :: l₂ := by
  rw [List.map_append, List.map_cons, if_pos rfl]
  have e₁ : (l₁.map fun r => if r.userID = po.userID then g r else r) = l₁ := by
    conv_rhs => rw [← List.map_id l₁]
    exact List.map_congr_left fun r hr => by simp [h₁ r hr]
  have e₂ : (l₂.map fun r => if r.userID = po.userID then g r else r) = l₂ := by
    conv_rhs => rw [← List.map_id l₂]
    exact List.map_congr_left fun r hr => by simp [h₂ r hr]
  rw [e₁, e₂]

lemma filter_erase_split {l₁ l₂ : List School} {po : School}
    (h₁ : ∀ r ∈ l₁, r.userID ≠ po.userID) (h₂ : ∀ r ∈ l₂, r.userID ≠ po.userID) :
    ((l₁ ++ po :: l₂).filter fun r => r.userID != po.userID) = l₁ ++ l₂ := by
  rw [List.filter_append, List.filter_cons_of_neg (by simp)]
  have e₁ : (l₁.filter fun r => r.userID != po.userID) = l₁ :=
    List.filter_eq_self.2 fun r hr => by simpa using h₁ r hr
  have e₂ : (l₂.filter fun r => r.userID != po.userID) = l₂ :=
    List.filter_eq_self.2 fun r hr => by simpa using h₂ r hr
  rw [e₁, e₂]

/-- A successful primary-key (or unique-key) lookup on a well-formed store
splits the table around the found record, and in-place modify/delete
touch exactly that position. -/
lemma modify_by_id (store : Store) (hwf : store.WF) {p : School → Bool}
    {po : School} (hfind : store.recs.find? p = some po) (g : School → School) :
    ∃ l₁ l₂, store.recs = l₁ ++ po :: l₂ ∧
      ((store.recs.map fun r => if r.userID = po.userID then g r else r) =
        l₁ ++ g po :: l₂) ∧
      ((store.recs.filter fun r => r.userID != po.userID) = l₁ ++ l₂) := by
  obtain ⟨l₁, l₂, heq⟩ := find?_split hfind
  have hpw := hwf.1
  rw [heq] at hpw
  obtain ⟨h₁, h₂⟩ := pairwise_ne_split hpw
  exact ⟨l₁, l₂, heq, by rw [heq]; exact map_modify_split g h₁ h₂,
    by rw [heq]; exact filter_erase_split h₁ h₂⟩

/-! ## Claim theorems -/

/-- C1: a REST create whose `number` is not already present in a
well-formed store increases the record count by exactly one, and the new
record is afterwards returned both by `user_by_id` on its assigned id and
by `user_by_number` on its `number`. -/
theorem apiCreate_fresh (store : Store) (name number teacher subject : String)
    (hwf : store.WF) (hfresh : ∀ r ∈ store.recs, r.number ≠ number) :
    ((apiCreate name number teacher subject store).2.recs.length
        = store.recs.length + 1) ∧
    ∃ po : School,
      (apiCreate name number teacher subject store).1 = Resp.jsonRecord po ∧
      user_by_id po.userID (apiCreate name number teacher subject store).2 = some po ∧
      user_by_number number (apiCreate name number teacher subject store).2 = some po ∧
      po.name = name ∧ po.number = number ∧ po.teacher = teacher ∧ po.subject = subject := by
  have hany : (store.recs.any fun r => r.number == number) = false :=
    List.any_eq_false.2 fun r hr => by simp [hfresh r hr]
  set po : School := ⟨store.nextId, name, number, teacher, subject⟩ with hpo
  have hc : apiCreate name number teacher subject store =
      (Resp.jsonRecord po, ⟨store.recs ++ [po], store.nextId + 1⟩) := by
    unfold apiCreate createRec
    rw [hany]
    rfl
  rw [hc]
  refine ⟨by simp, po, rfl, ?_, ?_, rfl, rfl, rfl, rfl⟩
  · unfold user_by_id
    have hnone : (store.recs.find? fun r => r.userID == po.userID) = none :=
      List.find?_eq_none.2 fun r hr => by
        have := hwf.2.2 r hr
        simp only [hpo]
        simp only [beq_iff_eq]
        omega
    simp [List.find?_append, hnone]
  · unfold user_by_number
    have hnone : (store.recs.find? fun r => r.number == number) = none :=
      List.find?_eq_none.2 fun r hr => by simp [hfresh r hr]
    simp [List.find?_append, hnone]

/-- C2: a REST create whose `number` already exists leaves the store
unchanged and returns the duplicate-failure message object with status
code 210. -/
theorem apiCreate_duplicate (store : Store) (name number teacher subject : String)
    (hdup : ∃ r ∈ store.recs, r.number = number) :
    apiCreate name number teacher subject store =
      (Resp.message 210
        ("Processed " ++ name ++ ", either a format error or " ++ number ++
          " is duplicate"),
        store) := by
  have hany : (store.recs.any fun r => r.number == number) = true := by
    rw [List.any_eq_true]
    obtain ⟨r, hr, he⟩ := hdup
    exact ⟨r, hr, by simp [he]⟩
  unfold apiCreate createRec
  rw [hany]
  rfl

/-- Witness for C1 at a concrete store and fresh number. -/
theorem apiCreate_fresh_witness :
    ((apiCreate "A" "n9" "t" "s" demoStore).2.recs.length
        = demoStore.recs.length + 1) ∧
    ∃ po : School,
      (apiCreate "A" "n9" "t" "s" demoStore).1 = Resp.jsonRecord po ∧
      user_by_id po.userID (apiCreate "A" "n9" "t" "s" demoStore).2 = some po ∧
      user_by_number "n9" (apiCreate "A" "n9" "t" "s" demoStore).2 = some po ∧
      po.name = "A" ∧ po.number = "n9" ∧ po.teacher = "t" ∧ po.subject = "s" :=
  apiCreate_fresh demoStore "A" "n9" "t" "s" (by decide) (by decide)

/-- Witness for C2 at a concrete store and duplicate number. -/
theorem apiCreate_duplicate_witness :
    apiCreate "A" "0001112222" "t" "s" demoStore =
      (Resp.message 210
        "Processed A, either a format error or 0001112222 is duplicate",
        demoStore) :=
  apiCreate_duplicate demoStore "A" "0001112222" "t" "s" ⟨wilma, by decide, rfl⟩

/-- C4: for each update operation (HTML update-by-id, REST
update-by-number of `name`, REST update-by-number of
`name`+`teacher`+`subject`) on a well-formed store: a non-matching key
leaves the store unchanged and produces the operation's not-found signal
(the no-op redirect for the HTML surface, the 210 message for REST);
a matching key changes only the targeted fields of the matched record,
preserving its other fields, its position and every other record. -/
theorem update_frame (store : Store) (hwf : store.WF) :
    (∀ form, ((parseNat (formGet form "userid")).bind
        fun uid => user_by_id uid store) = none →
      update form store = (Resp.redirect, store)) ∧
    (∀ form uid po, form ≠ [] →
      parseNat (formGet form "userid") = some uid →
      user_by_id uid store = some po →
      ∃ l₁ l₂, store.recs = l₁ ++ po :: l₂ ∧
        update form store =
          (Resp.redirect,
            { store with
              recs := l₁ ++ { po with name := formGet form "name" } :: l₂ })) ∧
    (∀ number name, user_by_number number store = none →
      apiUpdate number name store =
        (Resp.message 210 (number ++ " is not found"), store)) ∧
    (∀ number name po, user_by_number number store = some po →
      ∃ l₁ l₂, store.recs = l₁ ++ po :: l₂ ∧
        apiUpdate number name store =
          (Resp.jsonRecord { po with name := name },
            { store with recs := l₁ ++ { po with name := name } :: l₂ })) ∧
    (∀ number name teacher subject, user_by_number number store = none →
      apiUpdateAll number name teacher subject store =
        (Resp.message 210 (number ++ " is not found"), store)) ∧
    (∀ number name teacher subject po, user_by_number number store = some po →
      ∃ l₁ l₂, store.recs = l₁ ++ po :: l₂ ∧
        apiUpdateAll number name teacher subject store =
          (Resp.jsonRecord
            { po with name := name, teacher := teacher, subject := subject },
            { store with
              recs := l₁ ++
                { po with name := name, teacher := teacher, subject := subject }
                  :: l₂ })) := by
  refine ⟨?_, ?_, ?_, ?_, ?_, ?_⟩
  · intro form hnone
    unfold update
    by_cases hf : form.isEmpty
    · rw [if_pos hf]
    · rw [if_neg hf]
      cases hn : parseNat (formGet form "userid") with
      | none => rfl
      | some uid =>
        rw [hn, Option.some_bind] at hnone
        simp only [hnone]
  · intro form uid po hform hn hfound
    obtain ⟨l₁, l₂, heq, hmap, -⟩ :=
      modify_by_id store hwf hfound
        (fun r => { r with name := formGet form "name" })
    refine ⟨l₁, l₂, heq, ?_⟩
    unfold update
    rw [if_neg (by simpa [List.isEmpty_iff] using hform), hn]
    simp only [hfound]
    unfold updateNameRec
    rw [hmap]
  · intro number name hnone
    unfold apiUpdate
    rw [hnone]
  · intro number name po hfound
    obtain ⟨l₁, l₂, heq, hmap, -⟩ :=
      modify_by_id store hwf hfound (fun r => { r with name := name })
    refine ⟨l₁, l₂, heq, ?_⟩
    unfold apiUpdate
    simp only [hfound]
    unfold updateNameRec
    rw [hmap]
  · intro number name teacher subject hnone
    unfold apiUpdateAll
    rw [hnone]
  · intro number name teacher subject po hfound
    obtain ⟨l₁, l₂, heq, hmap, -⟩ :=
      modify_by_id store hwf hfound
        (fun r => { r with name := name, teacher := teacher, subject := subject })
    refine ⟨l₁, l₂, heq, ?_⟩
    unfold apiUpdateAll
    simp only [hfound]
    unfold updateAllRec
    rw [hmap]

/-- Witness for C4 at a concrete store: a missing number yields the 210
message and an unchanged store, and an existing id gets only its name
changed. -/
theorem update_frame_witness :
    apiUpdate "zzz" "N" demoStore =
      (Resp.message 210 "zzz is not found", demoStore) ∧
    ∃ l₁ l₂, demoStore.recs = l₁ ++ wilma :: l₂ ∧
      update [("userid", "1"), ("name", "W")] demoStore =
        (Resp.redirect,
          { demoStore with recs := l₁ ++ { wilma with name := "W" } :: l₂ }) := by
  have h := update_frame demoStore (by decide)
  refine ⟨h.2.2.1 "zzz" "N" (by decide), ?_⟩
  have h2 := h.2.1 [("userid", "1"), ("name", "W")] 1 wilma
    (by decide) (by decide) (by decide)
  obtain ⟨l₁, l₂, heq, hupd⟩ := h2
  exact ⟨l₁, l₂, heq, hupd⟩

/-- C5: REST delete of an existing id on a well-formed store removes
exactly that one record, preserving all others and their order, and
returns the record's pre-delete representation; delete of a non-existent
id leaves the store unchanged and returns the 210 not-found message. -/
theorem apiDelete_spec (store : Store) (hwf : store.WF) :
    (∀ userid, user_by_id userid store = none →
      apiDelete userid store =
        (Resp.message 210 (toString userid ++ " is not found"), store)) ∧
    (∀ userid po, user_by_id userid store = some po →
      ∃ l₁ l₂, store.recs = l₁ ++ po :: l₂ ∧
        apiDelete userid store =
          (Resp.jsonRecord po, { store with recs := l₁ ++ l₂ })) := by
  refine ⟨?_, ?_⟩
  · intro userid hnone
    unfold apiDelete
    rw [hnone]
  · intro userid po hfound
    obtain ⟨l₁, l₂, heq, -, hfil⟩ :=
      modify_by_id store hwf hfound id
    refine ⟨l₁, l₂, heq, ?_⟩
    unfold apiDelete
    simp only [hfound]
    unfold deleteRec
    rw [hfil]

/-- Witness for C5 at a concrete store: deleting id 2 removes exactly
Fred and returns his pre-delete representation; deleting id 9 is a no-op
with the 210 message. -/
theorem apiDelete_spec_witness :
    apiDelete 9 demoStore = (Resp.message 210 "9 is not found", demoStore) ∧
    ∃ l₁ l₂, demoStore.recs = l₁ ++ fred :: l₂ ∧
      apiDelete 2 demoStore =
        (Resp.jsonRecord fred, { demoStore with recs := l₁ ++ l₂ }) := by
  have h := apiDelete_spec demoStore (by decide)
  exact ⟨h.1 9 (by decide), h.2 2 fred (by decide)⟩

lemma ilike_eq_containsCI (term : String) (hw : NoWildcard term) (s : String) :
    ilike ("%" ++ term ++ "%") s = containsCI term s := by
  rw [Bool.eq_iff_iff]
  exact (ilike_wrapped_iff term hw s).trans (containsCI_iff term s).symm

lemma containsCI_nil (s : String) : containsCI "" s = true := by
  rw [containsCI_iff]
  have h : ("".toList.map Char.toLower) = [] := rfl
  rw [h]
  exact List.nil_infix

/-- C3 (amended): for every store and every search term free of the SQL
wildcard characters `%` and `_`, `users_ilike term` returns exactly the
records whose `name` or `number` contains `term` as a case-insensitive
substring, and `users_ilike ""` returns all records of the store. -/
theorem users_ilike_substring_search (term : String) (store : Store)
    (hw : NoWildcard term) :
    users_ilike term store =
      store.recs.filter
        (fun r => containsCI term r.name || containsCI term r.number) ∧
    users_ilike "" store = users_all store := by
  constructor
  · show store.recs.filter _ = _
    apply List.filter_congr
    intro r _
    rw [ilike_eq_containsCI term hw r.name, ilike_eq_containsCI term hw r.number]
  · show store.recs.filter _ = store.recs
    rw [List.filter_eq_self]
    intro r _
    rw [ilike_eq_containsCI "" (by decide) r.name,
      ilike_eq_containsCI "" (by decide) r.number]
    simp [containsCI_nil]

/-- C3 as stated fails for terms containing SQL wildcards: on the sample
store, searching the literal term "%" does not return the set of records
whose fields contain "%" as a substring. -/
theorem users_ilike_wildcard_cex :
    users_ilike "%" demoStore ≠
      demoStore.recs.filter
        (fun r => containsCI "%" r.name || containsCI "%" r.number) := by
  decide

/-- Witness for the amended C3 at a concrete term and store. -/
theorem users_ilike_substring_search_witness :
    users_ilike "fli" demoStore =
      demoStore.recs.filter
        (fun r => containsCI "fli" r.name || containsCI "fli" r.number) ∧
    users_ilike "" demoStore = users_all demoStore :=
  users_ilike_substring_search "fli" demoStore (by decide)

lemma likeMatch_triple_percent (s : List Char) :
    likeMatch ['%', '%', '%'] s = true := by
  rw [likeMatch_percent_iff]
  exact ⟨[], List.nil_suffix, by decide⟩

/-- C9: because `users_ilike` wraps the raw term in `%` and hands the
result to ILIKE, a term made of the SQL wildcard is interpreted as a
pattern rather than a literal substring: searching "%" returns every
record of every store — in particular records, such as the sample one,
whose `name` and `number` do not contain the character "%" at all. -/
theorem users_ilike_percent_returns_all (store : Store) :
    users_ilike "%" store = users_all store ∧
    wilma ∈ users_ilike "%" demoStore ∧
    containsCI "%" wilma.name = false ∧
    containsCI "%" wilma.number = false := by
  refine ⟨?_, by decide, by decide, by decide⟩
  show store.recs.filter _ = store.recs
  rw [List.filter_eq_self]
  intro r _
  have h1 : ilike ("%" ++ "%" ++ "%") r.name = true := by
    unfold ilike
    have he : ("%" ++ "%" ++ "%").toList = ['%', '%', '%'] := rfl
    rw [he]
    exact likeMatch_triple_percent _
  rw [h1]
  simp

/-- C6: an HTML `POST /create` with a nonempty form constructs a record
from the `name`, `number`, `teacher`, `subject` form fields and persists
it through the store's create, and always responds with the redirect to
the listing page; in particular a duplicate `number` leaves the store
unchanged with no user-visible error, still redirecting. -/
theorem create_html_redirects (form : Form) (store : Store) (h : form ≠ []) :
    (create form store).1 = Resp.redirect ∧
    (create form store).2 =
      (createRec store (formGet form "name") (formGet form "number")
        (formGet form "teacher") (formGet form "subject")).2 ∧
    ((∃ r ∈ store.recs, r.number = formGet form "number") →
      create form store = (Resp.redirect, store)) := by
  have hne : form.isEmpty = false := by simpa [List.isEmpty_iff] using h
  refine ⟨?_, ?_, ?_⟩
  · unfold create
    rw [hne]
    rfl
  · unfold create
    rw [hne]
    rfl
  · intro hdup
    have hany : (store.recs.any fun r => r.number == formGet form "number") = true := by
      rw [List.any_eq_true]
      obtain ⟨r, hr, he⟩ := hdup
      exact ⟨r, hr, by simp [he]⟩
    unfold create createRec
    rw [hne, hany]
    rfl

/-- Witness for C6: a duplicate-number form submission redirects and
leaves the sample store unchanged. -/
theorem create_html_redirects_witness :
    (create [("number", "0001112222")] demoStore).1 = Resp.redirect ∧
    (create [("number", "0001112222")] demoStore).2 =
      (createRec demoStore (formGet [("number", "0001112222")] "name")
        (formGet [("number", "0001112222")] "number")
        (formGet [("number", "0001112222")] "teacher")
        (formGet [("number", "0001112222")] "subject")).2 ∧
    ((∃ r ∈ demoStore.recs, r.number = formGet [("number", "0001112222")] "number") →
      create [("number", "0001112222")] demoStore = (Resp.redirect, demoStore)) :=
  create_html_redirects [("number", "0001112222")] demoStore (by decide)

/-- C7: every handler of the HTML and REST surfaces terminates with one
of the designed response shapes — a rendered page, a redirect, record or
array JSON, or a message object with status 210 — never a server error. -/
theorem handlers_designed :
    (∀ store, (crud store).designed) ∧
    (∀ form store, (create form store).1.designed) ∧
    (∀ form store, (read form store).designed) ∧
    (∀ form store, (update form store).1.designed) ∧
    (∀ form store, (delete form store).1.designed) ∧
    (∀ name number teacher subject store,
      (apiCreate name number teacher subject store).1.designed) ∧
    (∀ store, (apiRead store).designed) ∧
    (∀ term store, (apiReadILike term store).designed) ∧
    (∀ number name store, (apiUpdate number name store).1.designed) ∧
    (∀ number name teacher subject store,
      (apiUpdateAll number name teacher subject store).1.designed) ∧
    (∀ userid store, (apiDelete userid store).1.designed) := by
  refine ⟨?_, ?_, ?_, ?_, ?_, ?_, ?_, ?_, ?_, ?_, ?_⟩
  · intro store
    trivial
  · intro form store
    unfold create
    split <;> trivial
  · intro form store
    unfold read
    split
    · trivial
    · split
      · trivial
      · split <;> trivial
  · intro form store
    unfold update
    split
    · trivial
    · split
      · trivial
      · split <;> trivial
  · intro form store
    unfold delete
    split
    · trivial
    · split
      · trivial
      · split <;> trivial
  · intro name number teacher subject store
    unfold apiCreate
    split <;> trivial
  · intro store
    trivial
  · intro term store
    trivial
  · intro number name store
    unfold apiUpdate
    split <;> trivial
  · intro number name teacher subject store
    unfold apiUpdateAll
    split <;> trivial
  · intro userid store
    unfold apiDelete
    split <;> trivial

/-- C8: an HTML `POST /read` whose form carries the id of an existing
record renders a table with exactly that record's row; a missing or
unmatched id (or an empty form) renders an empty table. -/
theorem read_html_table (form : Form) (store : Store) :
    (∀ uid po, form ≠ [] →
      parseNat (formGet form "userid") = some uid →
      user_by_id uid store = some po →
      read form store = Resp.page [po]) ∧
    ((form = [] ∨ ((parseNat (formGet form "userid")).bind
        fun uid => user_by_id uid store) = none) →
      read form store = Resp.page []) := by
  constructor
  · intro uid po hform hn hfound
    unfold read
    rw [if_neg (by simpa [List.isEmpty_iff] using hform), hn]
    simp only [hfound]
  · intro hcase
    unfold read
    rcases hcase with hform | hnone
    · rw [if_pos (by simp [hform])]
    · by_cases hf : form.isEmpty
      · rw [if_pos hf]
      · rw [if_neg hf]
        cases hn : parseNat (formGet form "userid") with
        | none => rfl
        | some uid =>
          rw [hn, Option.some_bind] at hnone
          simp only [hnone]

/-- Witness for C8: reading an existing id renders its one-row table,
reading an absent id renders the empty table. -/
theorem read_html_table_witness :
    read [("userid", "2")] demoStore = Resp.page [fred] ∧
    read [("userid", "9")] demoStore = Resp.page [] := by
  have h := read_html_table [("userid", "2")] demoStore
  have h9 := read_html_table [("userid", "9")] demoStore
  exact ⟨h.1 2 fred (by decide) (by decide) (by decide),
    h9.2 (Or.inr (by decide))⟩

/-- C10: an HTML mutating request (`POST /create`, `/update`, `/delete`)
whose form body is empty performs no store operation at all and still
responds with the redirect to the listing page. -/
theorem empty_form_noop (store : Store) (form : Form) (h : form = []) :
    create form store = (Resp.redirect, store) ∧
    update form store = (Resp.redirect, store) ∧
    delete form store = (Resp.redirect, store) := by
  subst h
  exact ⟨rfl, rfl, rfl⟩

/-- Witness for C10 at a concrete store. -/
theorem empty_form_noop_witness :
    create [] demoStore = (Resp.redirect, demoStore) ∧
    update [] demoStore = (Resp.redirect, demoStore) ∧
    delete [] demoStore = (Resp.redirect, demoStore) :=
  empty_form_noop demoStore [] rfl

end Attendance
